import Mathlib

/-!
# DALScooter — Reservation Conflict & Availability Engine, verified model

A shallow embedding of the DALScooter booking module.  The backend Lambda
handler (`booking_crud_handler.py`) is declared by the Terraform module and
documented in `backend/booking-module/README.md` but its source is not part of
the repository snapshot, so the core engine (conflict detection, lifecycle,
cost) is modelled from the specification.  The frontend components
(`Booking.jsx`, `MyBookings.jsx`) are present and embedded directly from their
source.
-/

namespace DALScooter

/-- Modelled from the spec: the Time Window value type — a validated
`(date, start, end)` triple at minute resolution (§3).  `date` is an abstract
calendar-date index; `start` and `endTime` are minutes since midnight. -/
structure TimeWindow where
  date : Nat
  start : Nat
  endTime : Nat
deriving DecidableEq, Repr

/-- Modelled from the spec: half-open interval overlap (§4.1) — two windows
overlap iff they are on the same calendar date and
`start_A < end_B AND start_B < end_A`. -/
def overlaps (a b : TimeWindow) : Bool :=
  a.date == b.date && a.start < b.endTime && b.start < a.endTime

/-- Modelled from the spec: the reservation status state machine (§4.3),
a closed tagged state `confirmed | cancelled | completed`. -/
inductive Status where
  | confirmed
  | cancelled
  | completed
deriving DecidableEq, Repr

/-- Modelled from the spec: the Reservation entity (§3).  Identifiers,
references and owners are abstract `Nat` keys; monetary quantities are exact
rationals (exact fractional hours, no rounding, §4.4). -/
structure Reservation where
  id : Nat
  reference : Nat
  ownerId : Nat
  vehicleId : Nat
  window : TimeWindow
  hourlyRate : ℚ
  cost : ℚ
  status : Status
deriving DecidableEq, Repr

/-- Modelled from the spec: the Vehicle catalog entry (§3) — the core only
reads the identifier and the hourly rate. -/
structure Vehicle where
  bikeId : Nat
  hourlyRate : ℚ
deriving DecidableEq, Repr

/-- Modelled from the spec: the error taxonomy (§7).  `ConflictError` carries
the colliding reservation's reference. -/
inductive BookingError where
  | ValidationError
  | NotFoundError
  | AuthorizationError
  | ConflictError (reference : Nat)
  | InvalidStateError
  | PastWindowError
deriving DecidableEq, Repr

/-- Modelled from the spec: the Conflict Detector (§4.1) — consults only
reservations with `status = confirmed` for the given vehicle and returns the
first active reservation whose window overlaps the candidate window
(surfacing which reservation caused the conflict). -/
def findConflict (vehicleId : Nat) (w : TimeWindow) (rs : List Reservation) :
    Option Reservation :=
  rs.find? fun r =>
    r.vehicleId == vehicleId && r.status == Status.confirmed && overlaps r.window w

/-- Modelled from the spec: the pairwise conflict test between two
reservations — same vehicle and overlapping half-open windows, the single
shared comparison routine of §4.1/§9. -/
def conflictsRes (a b : Reservation) : Bool :=
  a.vehicleId == b.vehicleId && overlaps a.window b.window

/-- Modelled from the spec: Time Window validation (§3) — `start < end` at
minute granularity (zero-duration windows are rejected here, upstream of the
detector). -/
def validWindow (w : TimeWindow) : Bool :=
  w.start < w.endTime

/-- Modelled from the spec: duration of a window, computed to the minute
(§4.4). -/
def durationMinutes (w : TimeWindow) : Nat :=
  w.endTime - w.start

/-- Modelled from the spec: Cost Assigner (§4.4) —
`cost = hourlyRate × exact fractional duration in hours`, the duration
computed to the minute and then divided, with no rounding. -/
def computeCost (hourlyRate : ℚ) (w : TimeWindow) : ℚ :=
  hourlyRate * ((durationMinutes w : ℚ) / 60)

/-- Modelled from the spec: whether a window has fully elapsed relative to the
current date and minute (used by Cancel step 3, §4.3). -/
def windowElapsed (w : TimeWindow) (nowDate nowMinute : Nat) : Bool :=
  w.date < nowDate || (w.date == nowDate && w.endTime ≤ nowMinute)

/-- Modelled from the spec: the Reservation persisted by a successful create
(§4.3 step 4) — status `confirmed`, cost assigned from the vehicle's rate and
the window's duration. -/
def mkRes (freshId freshRef ownerId vehicleId : Nat) (w : TimeWindow)
    (rate : ℚ) : Reservation :=
  { id := freshId, reference := freshRef, ownerId := ownerId,
    vehicleId := vehicleId, window := w, hourlyRate := rate,
    cost := computeCost rate w, status := Status.confirmed }

/-- Modelled from the spec: Lifecycle Manager `Create` (§4.3).  The conflict
check and the persist are one atomic operation on the store state, mirroring
the conditional-write primitive `createIfNoConflict` that re-asserts the
non-overlap invariant at write time (§5, §6).  Returns the persisted
reservation and the new store state, or a typed error. -/
def createReservation (catalog : List Vehicle) (st : List Reservation)
    (freshId freshRef ownerId vehicleId : Nat) (w : TimeWindow) :
    Except BookingError (Reservation × List Reservation) :=
  if validWindow w then
    match catalog.find? (fun v => v.bikeId == vehicleId) with
    | none => Except.error BookingError.NotFoundError
    | some v =>
      match findConflict vehicleId w st with
      | some r => Except.error (BookingError.ConflictError r.reference)
      | none =>
        let res := mkRes freshId freshRef ownerId vehicleId w v.hourlyRate
        Except.ok (res, res :: st)
  else Except.error BookingError.ValidationError

/-- Modelled from the spec: Lifecycle Manager `Cancel` (§4.3) — look up by id
(not-found if absent), check owner isolation, check the `confirmed` state,
reject elapsed windows, then transition `status → cancelled` via the
conditional write. -/
def cancelReservation (st : List Reservation) (reservationId ownerId : Nat)
    (nowDate nowMinute : Nat) : Except BookingError (List Reservation) :=
  match st.find? (fun r => r.id == reservationId) with
  | none => Except.error BookingError.NotFoundError
  | some r =>
    if r.ownerId ≠ ownerId then Except.error BookingError.AuthorizationError
    else if r.status ≠ Status.confirmed then Except.error BookingError.InvalidStateError
    else if windowElapsed r.window nowDate nowMinute then
      Except.error BookingError.PastWindowError
    else
      Except.ok (st.map fun x =>
        if x.id == reservationId then { x with status := Status.cancelled } else x)

/-- Modelled from the spec: one client request against the engine — either a
create or a cancel (§4.3, §8 "any sequence of create/cancel operations"). -/
inductive Op where
  | create (freshId freshRef ownerId vehicleId : Nat) (w : TimeWindow)
  | cancel (reservationId ownerId nowDate nowMinute : Nat)

/-- Modelled from the spec: applying one request to the store state; a failed
request leaves the store unchanged (errors are reported to the caller, §7). -/
def applyOp (catalog : List Vehicle) (st : List Reservation) : Op → List Reservation
  | Op.create i ref o v w =>
    match createReservation catalog st i ref o v w with
    | Except.ok (_, st') => st'
    | Except.error _ => st
  | Op.cancel rid o nd nm =>
    match cancelReservation st rid o nd nm with
    | Except.ok st' => st'
    | Except.error _ => st

/-- Modelled from the spec: running a sequence of requests from the empty
store. -/
def runOps (catalog : List Vehicle) (ops : List Op) : List Reservation :=
  ops.foldl (applyOp catalog) []

/-- The reservations of one vehicle that currently hold the slot:
`status = confirmed` (§3 core invariant). -/
def vehicleConfirmed (v : Nat) (st : List Reservation) : List Reservation :=
  st.filter fun r => r.vehicleId == v && r.status == Status.confirmed

/-- The core invariant (§3): per vehicle, confirmed reservations have pairwise
non-overlapping windows. -/
def NonOverlapInv (st : List Reservation) : Prop :=
  ∀ v, (vehicleConfirmed v st).Pairwise fun a b => overlaps a.window b.window = false

/-! ## Frontend embedding (from source under `src/frontend`) -/

/-- From `MyBookings.jsx`: the fields of a fetched booking row consulted by
the client-side filter. -/
structure Booking where
  bookingId : String
  status : String
  bookingDate : String
deriving DecidableEq, Repr

/-- From `MyBookings.jsx` lines 151–155: the displayed list — a booking is
dropped when the status filter is not `"all"` and the status differs, or when
the date filter is truthy (non-empty) and the booking date differs. -/
def filteredBookings (bookings : List Booking) (filter dateFilter : String) :
    List Booking :=
  bookings.filter fun booking =>
    if filter ≠ "all" ∧ booking.status ≠ filter then false
    else if dateFilter ≠ "" ∧ booking.bookingDate ≠ dateFilter then false
    else true

/-- From `Booking.jsx`: the component state touched by `handleSubmit` (empty
string is the falsy/unset value of each text field, as in the JSX). -/
structure BookingForm where
  selectedVehicle : String
  selectedDate : String
  startTime : String
  endTime : String
  location : String
  message : String
  messageType : String
  loading : Bool
deriving DecidableEq, Repr

/-- From `Booking.jsx` lines 94–100: the JSON body of the POST /bookings
request. -/
structure BookingRequest where
  bikeId : String
  bookingDate : String
  startTime : String
  endTime : String
  pickupLocation : String
deriving DecidableEq, Repr

/-- The observable effect of one `handleSubmit` call: stop with a validation
message, redirect to login, or issue the creation request. -/
inductive SubmitAction where
  | validationStop
  | loginRedirect
  | sendRequest (r : BookingRequest)
deriving DecidableEq, Repr

/-- From `Booking.jsx` lines 75–109 (`handleSubmit`), up to the point where
the network call is issued: the guard rejects any empty required field and
sets the error message before any fetch; otherwise loading is set, the message
cleared, and either the login redirect or the POST body is produced. -/
def handleSubmit (s : BookingForm) (token : Option String) :
    BookingForm × SubmitAction :=
  if s.selectedVehicle = "" ∨ s.selectedDate = "" ∨ s.startTime = "" ∨
      s.endTime = "" ∨ s.location = "" then
    ({ s with
       message := "Please fill in all required fields",
       messageType := "error" }, SubmitAction.validationStop)
  else
    let s1 := { s with loading := true, message := "" }
    match token with
    | none => (s1, SubmitAction.loginRedirect)
    | some _ =>
      (s1, SubmitAction.sendRequest
        { bikeId := s.selectedVehicle, bookingDate := s.selectedDate,
          startTime := s.startTime, endTime := s.endTime,
          pickupLocation := s.location })

/-- From `Booking.jsx` (`checkAvailability`): the outcome of the
availability fetch — a parsed body whose `vehicles` field may be absent, a
non-ok HTTP response, or a thrown error. -/
inductive AvailabilityResponse where
  | success (vehicles : Option (List String))
  | httpError
  | networkError
deriving DecidableEq, Repr

/-- From `Booking.jsx` lines 35–59 (`checkAvailability`): with any of the
three query fields unset the function returns early leaving the previous list;
otherwise an ok response installs `data.vehicles || []` and every failure path
installs the empty list. -/
def checkAvailability (availableVehicles : List String)
    (selectedDate startTime endTime : String)
    (resp : AvailabilityResponse) : List String :=
  if selectedDate = "" ∨ startTime = "" ∨ endTime = "" then availableVehicles
  else
    match resp with
    | AvailabilityResponse.success vs => vs.getD []
    | AvailabilityResponse.httpError => []
    | AvailabilityResponse.networkError => []

/-! ## Lemmas about the overlap test -/

theorem overlaps_iff (a b : TimeWindow) :
    overlaps a b = true ↔ a.date = b.date ∧ a.start < b.endTime ∧ b.start < a.endTime := by
  simp [overlaps, and_assoc]

theorem overlaps_comm (a b : TimeWindow) : overlaps a b = overlaps b a := by
  rcases h : overlaps b a with _ | _
  · rcases h' : overlaps a b with _ | _
    · rfl
    · rw [overlaps_iff] at h'
      have : overlaps b a = true := by
        rw [overlaps_iff]
        exact ⟨h'.1.symm, h'.2.2, h'.2.1⟩
      rw [h] at this
      exact this.symm
  · rw [overlaps_iff] at h
    rw [overlaps_iff]
    exact ⟨h.1.symm, h.2.2, h.2.1⟩

theorem overlaps_self_of_valid {w : TimeWindow} (h : validWindow w = true) :
    overlaps w w = true := by
  rw [overlaps_iff]
  rw [validWindow, decide_eq_true_eq] at h
  exact ⟨rfl, h, h⟩

/-- C3: the Conflict Detector's overlap test returns true iff the windows
share the calendar date and `start_A < end_B AND start_B < end_A` (half-open
semantics); on any date, `[10:00,12:00)` and `[12:00,14:00)` do not conflict
while `[10:00,12:01)` and `[12:00,14:00)` do. -/
theorem overlap_halfopen_semantics :
    (∀ a b : TimeWindow,
      overlaps a b = true ↔ a.date = b.date ∧ a.start < b.endTime ∧ b.start < a.endTime) ∧
    (∀ d : Nat, overlaps ⟨d, 600, 720⟩ ⟨d, 720, 840⟩ = false) ∧
    (∀ d : Nat, overlaps ⟨d, 600, 721⟩ ⟨d, 720, 840⟩ = true) := by
  refine ⟨overlaps_iff, ?_, ?_⟩
  · intro d; simp [overlaps]
  · intro d; simp [overlaps]

/-- C7: the conflict test between two reservations is symmetric:
`conflicts(A,B) = conflicts(B,A)`. -/
theorem conflictsRes_symm (a b : Reservation) :
    conflictsRes a b = conflictsRes b a := by
  unfold conflictsRes
  rw [overlaps_comm]
  rcases h : (a.vehicleId == b.vehicleId) with _ | _
  · have : (b.vehicleId == a.vehicleId) = false := by
      simp only [beq_eq_false_iff_ne] at h ⊢
      exact fun hba => h hba.symm
    rw [this]
  · have : (b.vehicleId == a.vehicleId) = true := by
      simp only [beq_iff_eq] at h ⊢
      exact h.symm
    rw [this]

/-! ## Inversion lemmas for the lifecycle operations -/

theorem createReservation_ok {catalog : List Vehicle} {st : List Reservation}
    {i ref o vid : Nat} {w : TimeWindow} {res : Reservation} {st' : List Reservation}
    (h : createReservation catalog st i ref o vid w = Except.ok (res, st')) :
    st' = res :: st ∧ res.vehicleId = vid ∧ res.window = w ∧
      res.status = Status.confirmed ∧ findConflict vid w st = none := by
  unfold createReservation at h
  split at h
  · split at h
    · exact absurd h (by simp)
    · split at h
      · exact absurd h (by simp)
      · rw [Except.ok.injEq, Prod.mk.injEq] at h
        obtain ⟨hres, hst⟩ := h
        subst hres
        subst hst
        refine ⟨rfl, rfl, rfl, rfl, ?_⟩
        assumption
  · exact absurd h (by simp)

theorem cancelReservation_ok {st : List Reservation} {rid o nd nm : Nat}
    {st' : List Reservation}
    (h : cancelReservation st rid o nd nm = Except.ok st') :
    st' = st.map fun x =>
      if x.id == rid then { x with status := Status.cancelled } else x := by
  unfold cancelReservation at h
  split at h
  · exact absurd h (by simp)
  · split at h
    · exact absurd h (by simp)
    · split at h
      · exact absurd h (by simp)
      · split at h
        · exact absurd h (by simp)
        · rw [Except.ok.injEq] at h
          exact h.symm

theorem filter_map_sublist {α : Type} (f : α → α) (p : α → Bool)
    (h : ∀ x, p (f x) = true → f x = x) (l : List α) :
    ((l.map f).filter p).Sublist (l.filter p) := by
  induction l with
  | nil => simp
  | cons x t ih =>
    rw [List.map_cons, List.filter_cons, List.filter_cons]
    rcases hp : p (f x) with _ | _
    · simp only [hp, Bool.false_eq_true, if_false]
      rcases hq : p x with _ | _
      · simp only [hq, Bool.false_eq_true, if_false]
        exact ih
      · simp only [hq, if_true]
        exact ih.cons x
    · have hfx : f x = x := h x hp
      rw [hfx] at hp ⊢
      simp only [hp, if_true]
      exact ih.cons₂ x

theorem findConflict_none {vid : Nat} {w : TimeWindow} {st : List Reservation}
    (h : findConflict vid w st = none) :
    ∀ r ∈ st, r.vehicleId = vid → r.status = Status.confirmed →
      overlaps r.window w = false := by
  intro r hr hv hs
  unfold findConflict at h
  rw [List.find?_eq_none] at h
  have hx := h r hr
  simp only [hv, hs, beq_self_eq_true, Bool.true_and, Bool.not_eq_true] at hx
  exact hx

theorem findConflict_cons_self {vid : Nat} {w2 : TimeWindow} (r : Reservation)
    (st : List Reservation) (hveh : r.vehicleId = vid)
    (hstat : r.status = Status.confirmed) (hov : overlaps r.window w2 = true) :
    findConflict vid w2 (r :: st) = some r := by
  unfold findConflict
  apply List.find?_cons_of_pos
  simp [hveh, hstat, hov]

theorem createReservation_eq_ok (catalog : List Vehicle) (st : List Reservation)
    (i ref o vid : Nat) (w : TimeWindow) (veh : Vehicle)
    (hval : validWindow w = true)
    (hv : catalog.find? (fun x => x.bikeId == vid) = some veh)
    (hc : findConflict vid w st = none) :
    createReservation catalog st i ref o vid w =
      Except.ok (mkRes i ref o vid w veh.hourlyRate,
        mkRes i ref o vid w veh.hourlyRate :: st) := by
  unfold createReservation
  rw [if_pos hval, hv, hc]

theorem createReservation_eq_conflict (catalog : List Vehicle)
    (st : List Reservation) (i ref o vid : Nat) (w : TimeWindow)
    (veh : Vehicle) (r : Reservation)
    (hval : validWindow w = true)
    (hv : catalog.find? (fun x => x.bikeId == vid) = some veh)
    (hc : findConflict vid w st = some r) :
    createReservation catalog st i ref o vid w =
      Except.error (BookingError.ConflictError r.reference) := by
  unfold createReservation
  rw [if_pos hval, hv, hc]

theorem createReservation_ok_cost {catalog : List Vehicle} {st : List Reservation}
    {i ref o vid : Nat} {w : TimeWindow} {res : Reservation} {st' : List Reservation}
    {veh : Vehicle}
    (hv : catalog.find? (fun x => x.bikeId == vid) = some veh)
    (h : createReservation catalog st i ref o vid w = Except.ok (res, st')) :
    res.cost = computeCost veh.hourlyRate w := by
  unfold createReservation at h
  split at h
  · split at h
    · exact absurd h (by simp)
    · rename_i v heq
      split at h
      · exact absurd h (by simp)
      · rw [Except.ok.injEq, Prod.mk.injEq] at h
        obtain ⟨hres, hst⟩ := h
        subst hres
        rw [hv, Option.some.injEq] at heq
        subst heq
        rfl
  · exact absurd h (by simp)

/-! ## The per-vehicle non-overlap invariant -/

theorem applyOp_preserves {catalog : List Vehicle} {st : List Reservation}
    (hinv : NonOverlapInv st) (op : Op) :
    NonOverlapInv (applyOp catalog st op) := by
  cases op with
  | create i ref o vid w =>
    rcases h : createReservation catalog st i ref o vid w with e | ⟨res, st'⟩
    · simpa only [applyOp, h] using hinv
    · obtain ⟨hst, hveh, hwin, hstat, hconf⟩ := createReservation_ok h
      subst hst
      intro v
      simp only [applyOp, h]
      rw [vehicleConfirmed, List.filter_cons]
      rcases hc : (res.vehicleId == v && res.status == Status.confirmed) with _ | _
      · simp only [Bool.false_eq_true, if_false]
        exact hinv v
      · simp only [if_true]
        rw [List.pairwise_cons]
        refine ⟨?_, hinv v⟩
        intro b hb
        rw [List.mem_filter] at hb
        obtain ⟨hbmem, hbp⟩ := hb
        simp only [Bool.and_eq_true, beq_iff_eq] at hbp hc
        have hvvid : v = vid := by rw [← hc.1, hveh]
        have hb0 : overlaps b.window w = false :=
          findConflict_none hconf b hbmem (hvvid ▸ hbp.1) hbp.2
        rw [hwin, overlaps_comm]
        exact hb0
  | cancel rid o nd nm =>
    rcases h : cancelReservation st rid o nd nm with e | st'
    · simpa only [applyOp, h] using hinv
    · have hst := cancelReservation_ok h
      subst hst
      intro v
      simp only [applyOp, h]
      refine List.Pairwise.sublist ?_ (hinv v)
      apply filter_map_sublist
      intro x hx
      rcases hid : (x.id == rid) with _ | _
      · simp only [hid, Bool.false_eq_true, if_false]
      · simp only [hid, if_true] at hx
        simp only [Bool.and_eq_true, beq_iff_eq] at hx
        exact absurd hx.2 (by simp)

theorem runOps_foldl_inv (catalog : List Vehicle) (ops : List Op) :
    ∀ st : List Reservation, NonOverlapInv st →
      NonOverlapInv (ops.foldl (applyOp catalog) st) := by
  induction ops with
  | nil => intro st h; exact h
  | cons op ops ih =>
    intro st h
    rw [List.foldl_cons]
    exact ih _ (applyOp_preserves h op)

/-- C1: for every vehicle, after any sequence of create and cancel operations
starting from the empty store, the reservations of that vehicle with
`status = confirmed` have pairwise non-overlapping windows; cancelled and
completed reservations are excluded from the invariant. -/
theorem confirmed_windows_nonoverlapping (catalog : List Vehicle)
    (ops : List Op) (v : Nat) :
    (vehicleConfirmed v (runOps catalog ops)).Pairwise
      fun a b => overlaps a.window b.window = false := by
  refine runOps_foldl_inv catalog ops [] ?_ v
  intro u
  simp [vehicleConfirmed]

/-! ## Race resolution, cancellation, cost, owner isolation -/

/-- C2: two concurrent create requests for the same vehicle with fully
overlapping windows — under the conditional-write semantics the commit of each
request re-checks the invariant atomically, so in either commit order the
first request succeeds and the second receives a `ConflictError`; no
interleaving yields two confirmed reservations. -/
theorem race_exactly_one_winner (catalog : List Vehicle) (st : List Reservation)
    (i1 r1 o1 i2 r2 o2 vid : Nat) (w1 w2 : TimeWindow) (veh : Vehicle)
    (hv : catalog.find? (fun x => x.bikeId == vid) = some veh)
    (h1 : validWindow w1 = true) (h2 : validWindow w2 = true)
    (hc1 : findConflict vid w1 st = none) (hc2 : findConflict vid w2 st = none)
    (hov : overlaps w1 w2 = true) :
    (∃ res1 st1,
      createReservation catalog st i1 r1 o1 vid w1 = Except.ok (res1, st1) ∧
      createReservation catalog st1 i2 r2 o2 vid w2 =
        Except.error (BookingError.ConflictError res1.reference)) ∧
    (∃ res2 st2,
      createReservation catalog st i2 r2 o2 vid w2 = Except.ok (res2, st2) ∧
      createReservation catalog st2 i1 r1 o1 vid w1 =
        Except.error (BookingError.ConflictError res2.reference)) := by
  have hov21 : overlaps w2 w1 = true := by rw [overlaps_comm]; exact hov
  constructor
  · refine ⟨mkRes i1 r1 o1 vid w1 veh.hourlyRate, _,
      createReservation_eq_ok catalog st i1 r1 o1 vid w1 veh h1 hv hc1, ?_⟩
    exact createReservation_eq_conflict catalog _ i2 r2 o2 vid w2 veh _ h2 hv
      (findConflict_cons_self _ st rfl rfl hov)
  · refine ⟨mkRes i2 r2 o2 vid w2 veh.hourlyRate, _,
      createReservation_eq_ok catalog st i2 r2 o2 vid w2 veh h2 hv hc2, ?_⟩
    exact createReservation_eq_conflict catalog _ i1 r1 o1 vid w1 veh _ h1 hv
      (findConflict_cons_self _ st rfl rfl hov21)

theorem race_exactly_one_winner_witness :
    (∃ res1 st1,
      createReservation [⟨1, (12:ℚ)⟩] [] 1 101 7 1 ⟨0, 600, 720⟩ =
        Except.ok (res1, st1) ∧
      createReservation [⟨1, (12:ℚ)⟩] st1 2 102 8 1 ⟨0, 600, 720⟩ =
        Except.error (BookingError.ConflictError res1.reference)) ∧
    (∃ res2 st2,
      createReservation [⟨1, (12:ℚ)⟩] [] 2 102 8 1 ⟨0, 600, 720⟩ =
        Except.ok (res2, st2) ∧
      createReservation [⟨1, (12:ℚ)⟩] st2 1 101 7 1 ⟨0, 600, 720⟩ =
        Except.error (BookingError.ConflictError res2.reference)) :=
  race_exactly_one_winner [⟨1, (12:ℚ)⟩] [] 1 101 7 2 102 8 1 ⟨0, 600, 720⟩
    ⟨0, 600, 720⟩ ⟨1, (12:ℚ)⟩ rfl (by decide) (by decide) rfl rfl (by decide)

theorem cancelReservation_eq_ok (st : List Reservation) (rid o nd nm : Nat)
    (r : Reservation)
    (hfind : st.find? (fun x => x.id == rid) = some r)
    (hown : r.ownerId = o) (hstat : r.status = Status.confirmed)
    (hnow : windowElapsed r.window nd nm = false) :
    cancelReservation st rid o nd nm =
      Except.ok (st.map fun x =>
        if x.id == rid then { x with status := Status.cancelled } else x) := by
  simp [cancelReservation, hfind, hown, hstat, hnow]

/-- C4: cancellation frees the slot — create A for window `w` on vehicle `vid`
succeeds; a second create for `w` fails with a `ConflictError` naming A;
after cancelling A (the detector ignores `cancelled` reservations) the
repeated create succeeds. -/
theorem cancellation_frees_slot (vid o1 o2 i1 r1 i2 r2 nd nm : Nat) (rate : ℚ)
    (w : TimeWindow) (hw : validWindow w = true)
    (hnow : windowElapsed w nd nm = false) :
    ∃ A stA,
      createReservation [⟨vid, rate⟩] [] i1 r1 o1 vid w = Except.ok (A, stA) ∧
      createReservation [⟨vid, rate⟩] stA i2 r2 o2 vid w =
        Except.error (BookingError.ConflictError A.reference) ∧
      ∃ stC, cancelReservation stA A.id o1 nd nm = Except.ok stC ∧
        ∃ B stB,
          createReservation [⟨vid, rate⟩] stC i2 r2 o2 vid w =
            Except.ok (B, stB) := by
  have hcat : ([⟨vid, rate⟩] : List Vehicle).find? (fun x => x.bikeId == vid) =
      some ⟨vid, rate⟩ := List.find?_cons_of_pos _ (by simp)
  have hself : overlaps w w = true := overlaps_self_of_valid hw
  refine ⟨mkRes i1 r1 o1 vid w rate, [mkRes i1 r1 o1 vid w rate], ?_, ?_, ?_⟩
  · exact createReservation_eq_ok [⟨vid, rate⟩] [] i1 r1 o1 vid w ⟨vid, rate⟩
      hw hcat rfl
  · exact createReservation_eq_conflict [⟨vid, rate⟩] _ i2 r2 o2 vid w
      ⟨vid, rate⟩ _ hw hcat (findConflict_cons_self _ [] rfl rfl hself)
  · have hcanc := cancelReservation_eq_ok [mkRes i1 r1 o1 vid w rate]
      (mkRes i1 r1 o1 vid w rate).id o1 nd nm (mkRes i1 r1 o1 vid w rate)
      (List.find?_cons_of_pos _ (by simp)) rfl rfl hnow
    have hmap : (([mkRes i1 r1 o1 vid w rate] : List Reservation).map fun x =>
        if x.id == (mkRes i1 r1 o1 vid w rate).id then
          { x with status := Status.cancelled } else x) =
        [{ mkRes i1 r1 o1 vid w rate with status := Status.cancelled }] := by
      simp
    rw [hmap] at hcanc
    have hnc : findConflict vid w
        [{ mkRes i1 r1 o1 vid w rate with status := Status.cancelled }] = none := by
      unfold findConflict
      refine List.find?_eq_none.mpr ?_
      intro x hx
      rw [List.mem_singleton] at hx
      subst hx
      simp [mkRes]
    refine ⟨[{ mkRes i1 r1 o1 vid w rate with status := Status.cancelled }],
      hcanc, mkRes i2 r2 o2 vid w rate,
      mkRes i2 r2 o2 vid w rate ::
        [{ mkRes i1 r1 o1 vid w rate with status := Status.cancelled }], ?_⟩
    exact createReservation_eq_ok [⟨vid, rate⟩] _ i2 r2 o2 vid w ⟨vid, rate⟩
      hw hcat hnc

theorem cancellation_frees_slot_witness :
    ∃ A stA,
      createReservation [⟨1, (12:ℚ)⟩] [] 1 101 7 1 ⟨1, 600, 720⟩ =
        Except.ok (A, stA) ∧
      createReservation [⟨1, (12:ℚ)⟩] stA 2 102 8 1 ⟨1, 600, 720⟩ =
        Except.error (BookingError.ConflictError A.reference) ∧
      ∃ stC, cancelReservation stA A.id 7 0 0 = Except.ok stC ∧
        ∃ B stB,
          createReservation [⟨1, (12:ℚ)⟩] stC 2 102 8 1 ⟨1, 600, 720⟩ =
            Except.ok (B, stB) :=
  cancellation_frees_slot 1 7 8 1 101 2 102 0 0 12 ⟨1, 600, 720⟩
    (by decide) (by decide)

/-- C5: every accepted creation carries
`cost = hourlyRate × exact fractional duration in hours` — the window's
duration in minutes divided by 60, with no rounding. -/
theorem create_cost_exact (catalog : List Vehicle) (st : List Reservation)
    (i ref o vid : Nat) (w : TimeWindow) (res : Reservation)
    (st' : List Reservation) (veh : Vehicle)
    (hv : catalog.find? (fun x => x.bikeId == vid) = some veh)
    (h : createReservation catalog st i ref o vid w = Except.ok (res, st')) :
    res.cost = veh.hourlyRate * ((durationMinutes w : ℚ) / 60) :=
  createReservation_ok_cost hv h

theorem create_cost_exact_witness :
    createReservation [⟨1, (12:ℚ)⟩] [] 1 101 7 1 ⟨0, 600, 720⟩ =
      Except.ok (mkRes 1 101 7 1 ⟨0, 600, 720⟩ 12,
        [mkRes 1 101 7 1 ⟨0, 600, 720⟩ 12]) ∧
    (mkRes 1 101 7 1 ⟨0, 600, 720⟩ 12).cost = 24 := by
  have hcr : createReservation [⟨1, (12:ℚ)⟩] [] 1 101 7 1 ⟨0, 600, 720⟩ =
      Except.ok (mkRes 1 101 7 1 ⟨0, 600, 720⟩ 12,
        [mkRes 1 101 7 1 ⟨0, 600, 720⟩ 12]) :=
    createReservation_eq_ok [⟨1, (12:ℚ)⟩] [] 1 101 7 1 ⟨0, 600, 720⟩ ⟨1, 12⟩
      (by decide) rfl rfl
  refine ⟨hcr, ?_⟩
  have h24 := create_cost_exact [⟨1, (12:ℚ)⟩] [] 1 101 7 1 ⟨0, 600, 720⟩
    (mkRes 1 101 7 1 ⟨0, 600, 720⟩ 12) [mkRes 1 101 7 1 ⟨0, 600, 720⟩ 12]
    ⟨1, 12⟩ rfl hcr
  rw [h24]
  norm_num [durationMinutes]

/-- C6: owner isolation — if the reservation exists but its owner differs from
the caller, cancellation fails with `AuthorizationError` and the store state
is unchanged. -/
theorem cancel_owner_isolation (catalog : List Vehicle) (st : List Reservation)
    (rid oid nd nm : Nat) (r : Reservation)
    (hfind : st.find? (fun x => x.id == rid) = some r)
    (hown : r.ownerId ≠ oid) :
    cancelReservation st rid oid nd nm =
      Except.error BookingError.AuthorizationError ∧
    applyOp catalog st (Op.cancel rid oid nd nm) = st := by
  have h1 : cancelReservation st rid oid nd nm =
      Except.error BookingError.AuthorizationError := by
    simp [cancelReservation, hfind, hown]
  exact ⟨h1, by simp [applyOp, h1]⟩

theorem cancel_owner_isolation_witness :
    cancelReservation [mkRes 1 101 7 1 ⟨0, 600, 720⟩ 12] 1 8 0 0 =
      Except.error BookingError.AuthorizationError ∧
    applyOp [] [mkRes 1 101 7 1 ⟨0, 600, 720⟩ 12] (Op.cancel 1 8 0 0) =
      [mkRes 1 101 7 1 ⟨0, 600, 720⟩ 12] :=
  cancel_owner_isolation [] [mkRes 1 101 7 1 ⟨0, 600, 720⟩ 12] 1 8 0 0
    (mkRes 1 101 7 1 ⟨0, 600, 720⟩ 12) rfl (by decide)

/-! ## Frontend properties -/

theorem filterPred_iff (filter dateFilter : String) (b : Booking) :
    ((if filter ≠ "all" ∧ b.status ≠ filter then false
      else if dateFilter ≠ "" ∧ b.bookingDate ≠ dateFilter then false
      else true) = true) ↔
      (filter = "all" ∨ b.status = filter) ∧
        (dateFilter = "" ∨ b.bookingDate = dateFilter) := by
  split_ifs with h1 h2
  · simp only [Bool.false_eq_true, false_iff]
    rintro ⟨hs, _⟩
    rcases hs with hs | hs
    · exact h1.1 hs
    · exact h1.2 hs
  · simp only [Bool.false_eq_true, false_iff]
    rintro ⟨_, hd⟩
    rcases hd with hd | hd
    · exact h2.1 hd
    · exact h2.2 hd
  · refine ⟨fun _ => ⟨?_, ?_⟩, fun _ => rfl⟩
    · tauto
    · tauto

/-- C8: a booking appears in the displayed MyBookings list iff it is among the
fetched bookings, matches the status filter (or the filter is `"all"`), and
matches the date filter (or the date filter is empty); with filter `"all"` and
empty date filter the displayed list is the fetched list unchanged. -/
theorem filteredBookings_spec :
    (∀ (bookings : List Booking) (filter dateFilter : String) (b : Booking),
      b ∈ filteredBookings bookings filter dateFilter ↔
        b ∈ bookings ∧ (filter = "all" ∨ b.status = filter) ∧
          (dateFilter = "" ∨ b.bookingDate = dateFilter)) ∧
    (∀ bookings : List Booking, filteredBookings bookings "all" "" = bookings) := by
  constructor
  · intro bookings filter dateFilter b
    simp only [filteredBookings, List.mem_filter]
    exact and_congr_right fun _ => filterPred_iff filter dateFilter b
  · intro bookings
    simp only [filteredBookings]
    refine List.filter_eq_self.mpr ?_
    intro b _
    simp

/-- C9: submitting the booking form with any required field empty issues no
creation request — the handler sets the error message and stops before any
network call, leaving every other piece of form state unchanged. -/
theorem handleSubmit_empty_field_no_request (s : BookingForm)
    (token : Option String)
    (h : s.selectedVehicle = "" ∨ s.selectedDate = "" ∨ s.startTime = "" ∨
      s.endTime = "" ∨ s.location = "") :
    handleSubmit s token =
      ({ s with
         message := "Please fill in all required fields",
         messageType := "error" }, SubmitAction.validationStop) := by
  unfold handleSubmit
  rw [if_pos h]

theorem handleSubmit_empty_field_witness :
    handleSubmit
      ⟨"", "2024-01-15", "10:00", "12:00", "Halifax Downtown", "", "", false⟩
      none =
      (⟨"", "2024-01-15", "10:00", "12:00", "Halifax Downtown",
        "Please fill in all required fields", "error", false⟩,
       SubmitAction.validationStop) :=
  handleSubmit_empty_field_no_request
    ⟨"", "2024-01-15", "10:00", "12:00", "Halifax Downtown", "", "", false⟩
    none (Or.inl rfl)

/-- C10: when the availability request fails — non-ok HTTP response or a
thrown error — the list of available vehicles is set to the empty list, so a
vehicle from a failed query is never offered for selection. -/
theorem checkAvailability_failure_empties (prev : List String)
    (d s e : String) (resp : AvailabilityResponse)
    (hd : d ≠ "") (hs : s ≠ "") (he : e ≠ "")
    (hfail : resp = AvailabilityResponse.httpError ∨
      resp = AvailabilityResponse.networkError) :
    checkAvailability prev d s e resp = [] := by
  unfold checkAvailability
  rw [if_neg (by push_neg; exact ⟨hd, hs, he⟩)]
  rcases hfail with h | h <;> rw [h]

theorem checkAvailability_failure_witness :
    checkAvailability ["bike-1"] "2024-01-15" "10:00" "12:00"
      AvailabilityResponse.httpError = [] :=
  checkAvailability_failure_empties ["bike-1"] "2024-01-15" "10:00" "12:00"
    AvailabilityResponse.httpError (by decide) (by decide) (by decide)
    (Or.inl rfl)

end DALScooter
